import Mathlib

/-!
Shallow embedding of the training/evaluation core of
`modules/runner.py` (functions `eval_model` and `train_model`) from the
LoRa-challengingDatasets repository, together with theorems settling the
frozen specification claims.

Tensors are abstracted: a similarity row is a `List ℚ`, per-class memory
is a family of lists, model parameters are tracked by a mutation counter.
Python floats are embedded as rationals (exact arithmetic).
-/

namespace Runner

/-! ## Iteration counting and the per-batch forward (`train_model`, lines 110-168)

The training loop is

    total_iters = args.n_iters * args.shots
    count_iters = 0
    while count_iters < total_iters:
        for i, batch in enumerate(train_loader):
            if args.encoder == 'vision' or args.encoder == 'both':
                image_encoding = model.encode_image(images)          # lines 134-137:
                image_features = image_encoding/...                  # only binding of image_features
            cosine_similarity = logit_scale * image_features @ ...   # line 143 (meta) / 146
            ... loss, backward, one optimizer step ...
            count_iters += 1
            if count_iters == total_iters:
                break

`image_features` is assigned somewhere in `train_model`, so it is a local
name; when `args.encoder` is neither `vision` nor `both` the use at line
143/146 raises `UnboundLocalError` in the first batch, before any
optimizer step.  Python runtime errors are embedded as `PyErr`. -/

inductive PyErr where
  | unboundLocal (name : String) : PyErr
  deriving DecidableEq

/-- The guard at line 134, the only place `image_features` is bound. -/
def encoderBindsImages (encoder : String) : Bool :=
  encoder == "vision" || encoder == "both"

/-- The inner `for` over a loader of `b` batches, starting from iteration
counter `count`: each batch either fails to resolve `image_features`
(encoder neither `vision` nor `both`) and raises before the optimizer
step, or performs exactly one optimizer step and increments the counter,
breaking when it reaches `total`.  Returns the counter at loop exit
together with the raised error, if any. -/
def epochSteps (encoder : String) : Nat → Nat → Nat → Nat × Option PyErr
  | 0, count, _ => (count, none)
  | b + 1, count, total =>
      if encoderBindsImages encoder then
        if count + 1 = total then (count + 1, none)
        else epochSteps encoder b (count + 1) total
      else (count, some (PyErr.unboundLocal "image_features"))

theorem epochSteps_binds (encoder : String)
    (hbind : encoderBindsImages encoder = true) :
    ∀ b count total, count < total →
      epochSteps encoder b count total = (min (count + b) total, none) := by
  intro b
  induction b with
  | zero =>
      intro count total h
      simp only [epochSteps]
      have : min (count + 0) total = count := by omega
      rw [this]
  | succ b ih =>
      intro count total h
      unfold epochSteps
      rw [hbind]
      by_cases hc : count + 1 = total
      · simp only [hc, if_true, if_pos rfl]
        have : min (count + (b + 1)) total = total := by omega
        rw [this]
      · have h1 : count + 1 < total := by omega
        simp only [if_true, if_neg hc, ih (count + 1) total h1]
        have : count + 1 + b = count + (b + 1) := by omega
        rw [this]

theorem epochSteps_no_binds (encoder : String)
    (hnb : encoderBindsImages encoder = false)
    (b count total : Nat) (hb : 1 ≤ b) :
    epochSteps encoder b count total =
      (count, some (PyErr.unboundLocal "image_features")) := by
  obtain ⟨b2, rfl⟩ : ∃ b2, b = b2 + 1 := ⟨b - 1, by omega⟩
  unfold epochSteps
  rw [hnb]
  simp

/-! ## Meta Key Memory (`train_model`, lines 161-164)

    if args.enable_MetaAdapter:
        with torch.no_grad():
            for tar, feat in zip(target, image_features):
                meta_key[tar] = torch.cat([feat[None, :],
                                           meta_key[tar][:meta_key.shape[1] - 1]], dim=0)

The `[num_classes, M, D]` tensor is embedded as a family of per-class
buffers (`rows`), each buffer a list of `D`-dimensional embeddings of
abstract type `E`; `M` records the static second dimension
`meta_key.shape[1]`. -/

structure MetaKey (E : Type) where
  numClasses : Nat
  M : Nat
  rows : Nat → List E

/-- One per-example update: row `tar` becomes the new embedding `feat`
prepended to the first `M - 1` entries of the old row `tar`; all other
rows are untouched. -/
def MetaKey.updateOne {E : Type} (m : MetaKey E) (tar : Nat) (feat : E) : MetaKey E :=
  { m with rows := fun c => if c = tar then feat :: (m.rows tar).take (m.M - 1) else m.rows c }

/-- The per-batch update: the zipped `(label, embedding)` pairs are applied
sequentially, in batch order. -/
def MetaKey.batchUpdate {E : Type} (m : MetaKey E) (batch : List (Nat × E)) : MetaKey E :=
  batch.foldl (fun acc p => acc.updateOne p.1 p.2) m

/-- Shape invariant: every class buffer has length exactly `M`. -/
def MetaKey.wf {E : Type} (m : MetaKey E) : Prop :=
  ∀ c, c < m.numClasses → (m.rows c).length = m.M

theorem MetaKey.updateOne_numClasses {E : Type} (m : MetaKey E) (tar : Nat) (feat : E) :
    (m.updateOne tar feat).numClasses = m.numClasses := rfl

theorem MetaKey.updateOne_M {E : Type} (m : MetaKey E) (tar : Nat) (feat : E) :
    (m.updateOne tar feat).M = m.M := rfl

theorem MetaKey.updateOne_wf {E : Type} (m : MetaKey E) (tar : Nat) (feat : E)
    (hwf : m.wf) (hM : 1 ≤ m.M) (htar : tar < m.numClasses) :
    (m.updateOne tar feat).wf := by
  intro c hc
  simp only [MetaKey.updateOne] at hc ⊢
  by_cases h : c = tar
  · subst h
    simp only [eq_self_iff_true, if_true, List.length_cons, List.length_take, hwf c htar]
    omega
  · simp only [if_neg h]
    exact hwf c hc

theorem MetaKey.batchUpdate_numClasses {E : Type} (batch : List (Nat × E)) :
    ∀ m : MetaKey E, (m.batchUpdate batch).numClasses = m.numClasses := by
  induction batch with
  | nil => intro m; rfl
  | cons p rest ih =>
      intro m
      simpa [MetaKey.batchUpdate] using ih (m.updateOne p.1 p.2)

theorem MetaKey.batchUpdate_M {E : Type} (batch : List (Nat × E)) :
    ∀ m : MetaKey E, (m.batchUpdate batch).M = m.M := by
  induction batch with
  | nil => intro m; rfl
  | cons p rest ih =>
      intro m
      simpa [MetaKey.batchUpdate] using ih (m.updateOne p.1 p.2)

theorem MetaKey.batchUpdate_wf {E : Type} (batch : List (Nat × E)) :
    ∀ m : MetaKey E, m.wf → 1 ≤ m.M → (∀ p ∈ batch, p.1 < m.numClasses) →
      (m.batchUpdate batch).wf := by
  induction batch with
  | nil => intro m hwf _ _; exact hwf
  | cons p rest ih =>
      intro m hwf hM hlab
      have h1 : (m.updateOne p.1 p.2).wf :=
        m.updateOne_wf p.1 p.2 hwf hM (hlab p (by simp))
      have := ih (m.updateOne p.1 p.2) h1 hM
        (fun q hq => hlab q (by simp [hq]))
      simpa [MetaKey.batchUpdate] using this

theorem MetaKey.batchUpdate_frame {E : Type} (batch : List (Nat × E)) :
    ∀ (m : MetaKey E) (c : Nat), (∀ p ∈ batch, p.1 ≠ c) →
      (m.batchUpdate batch).rows c = m.rows c := by
  induction batch with
  | nil => intro m c _; rfl
  | cons p rest ih =>
      intro m c hc
      have h1 : (m.updateOne p.1 p.2).rows c = m.rows c := by
        simp only [MetaKey.updateOne]
        have : c ≠ p.1 := fun h => hc p (by simp) h.symm
        simp [this]
      have := ih (m.updateOne p.1 p.2) c (fun q hq => hc q (by simp [hq]))
      simpa [MetaKey.batchUpdate, h1] using this

/-- C2: a per-example update replaces row `label` by the new embedding
prepended to the first `M - 1` previous entries; consequently after any
batch of sequential updates (hence after every sequence of `N ≥ 1`
updates) every class buffer still has length exactly `M`, and rows of
classes not appearing in the batch are unchanged. -/
theorem C2_meta_key_update {E : Type} (m : MetaKey E) (batch : List (Nat × E))
    (hwf : m.wf) (hM : 1 ≤ m.M) (hlab : ∀ p ∈ batch, p.1 < m.numClasses) :
    (∀ tar feat, (m.updateOne tar feat).rows tar =
        feat :: (m.rows tar).take (m.M - 1)) ∧
    (m.batchUpdate batch).wf ∧ (m.batchUpdate batch).M = m.M ∧
    (∀ c, (∀ p ∈ batch, p.1 ≠ c) → (m.batchUpdate batch).rows c = m.rows c) := by
  refine ⟨fun tar feat => by simp [MetaKey.updateOne], ?_, ?_, ?_⟩
  · exact MetaKey.batchUpdate_wf batch m hwf hM hlab
  · exact MetaKey.batchUpdate_M batch m
  · intro c hc
    exact MetaKey.batchUpdate_frame batch m c hc

/-- Witness for C2 at the spec's scenario: `num_classes = 5`, `M = 4`,
memory initialized with 4 entries per class, then one training batch with
a single sample of class 2: class 2 drops its oldest entry and prepends
the new embedding, the other rows keep length 4 and are unchanged. -/
theorem C2_meta_key_update_witness :
    letI m0 : MetaKey ℤ :=
      ⟨5, 4, fun c => [(10 * c : ℤ), 10 * c + 1, 10 * c + 2, 10 * c + 3]⟩
    (∀ tar feat, (m0.updateOne tar feat).rows tar =
        feat :: (m0.rows tar).take (m0.M - 1)) ∧
    (m0.batchUpdate [(2, (99 : ℤ))]).wf ∧ (m0.batchUpdate [(2, (99 : ℤ))]).M = m0.M ∧
    (∀ c, (∀ p ∈ [((2 : Nat), (99 : ℤ))], p.1 ≠ c) →
      (m0.batchUpdate [(2, (99 : ℤ))]).rows c = m0.rows c) :=
  C2_meta_key_update _ _ (by intro c _; rfl) (by decide)
    (by intro p hp; simp at hp; simp [hp])

/-! ## Evaluation accuracy accumulation (`eval_model`, lines 38-91)

    acc = 0.; tot_samples = 0
    for i, (images, target, target_f) in enumerate(loader):
        ...
        pred = cosine_similarity.argmax(dim=-1)
        acc += cls_acc(cosine_similarity, target) * len(cosine_similarity)
        tot_samples += len(cosine_similarity)
        all_targets.extend(target...); all_predictions.extend(pred...)
    acc /= tot_samples

A batch is embedded as a pair: the list of similarity rows (one `List ℚ`
per sample) and the list of integer targets. -/

/-- Tail of torch `argmax`: scan remaining entries, keeping the first
maximal value seen so far (strict improvement moves the index). -/
def argmaxGo : List ℚ → Nat → Nat → ℚ → Nat
  | [], _, best, _ => best
  | x :: xs, i, best, bv =>
      if bv < x then argmaxGo xs (i + 1) i x else argmaxGo xs (i + 1) best bv

/-- Embedding of `torch.argmax(dim=-1)` on one similarity row: index of the first
maximal entry (first-max semantics). -/
def argmaxL : List ℚ → Nat
  | [] => 0
  | x :: xs => argmaxGo xs 1 0 x

/-- Modelled from the spec: `cls_acc` is defined in `modules/utils.py`,
which is not among the provided sources; per the spec it returns the
per-batch accuracy, the mean of `(argmax(similarity) == target)` over the
batch. -/
def cls_acc (sims : List (List ℚ)) (targets : List Nat) : ℚ :=
  ((((sims.map argmaxL).zip targets).countP (fun p => p.1 == p.2) : Nat) : ℚ) /
    ((sims.length : Nat) : ℚ)

/-- Number of positions where prediction equals target. -/
def correctCount (preds targets : List Nat) : Nat :=
  (preds.zip targets).countP (fun p => p.1 == p.2)

structure EvalState where
  acc : ℚ
  tot : Nat
  targets : List Nat
  preds : List Nat

/-- One iteration of the evaluation loop's accumulation. -/
def evalStep (st : EvalState) (b : List (List ℚ) × List Nat) : EvalState :=
  { acc := st.acc + cls_acc b.1 b.2 * ((b.1.length : Nat) : ℚ)
    tot := st.tot + b.1.length
    targets := st.targets ++ b.2
    preds := st.preds ++ b.1.map argmaxL }

def evalFold (batches : List (List (List ℚ) × List Nat)) : EvalState :=
  batches.foldl evalStep ⟨0, 0, [], []⟩

/-- The accuracy returned by `eval_model`: `acc /= tot_samples`. -/
def evalAccuracy (batches : List (List (List ℚ) × List Nat)) : ℚ :=
  (evalFold batches).acc / (((evalFold batches).tot : Nat) : ℚ)

/-- Direct one-shot mean of `(prediction == target)` over the concatenated
output arrays. -/
def oneShotAccuracy (preds targets : List Nat) : ℚ :=
  ((correctCount preds targets : Nat) : ℚ) / ((targets.length : Nat) : ℚ)

/-- The same running accumulation with the per-batch accuracy values taken
as given: `sum(accuracy_i * size_i) / sum(size_i)`. -/
def weightedAccuracy (l : List (ℚ × Nat)) : ℚ :=
  (l.foldl (fun s p => s + p.1 * ((p.2 : Nat) : ℚ)) 0) /
    (((l.foldl (fun t p => t + p.2) 0 : Nat) : ℚ))

theorem cls_acc_mul_length (sims : List (List ℚ)) (targets : List Nat) :
    cls_acc sims targets * ((sims.length : Nat) : ℚ) =
      ((correctCount (sims.map argmaxL) targets : Nat) : ℚ) := by
  by_cases h : sims = []
  · subst h; simp [cls_acc, correctCount]
  · have hn : ((sims.length : Nat) : ℚ) ≠ 0 := by
      have := List.length_pos.mpr h
      positivity
    simpa [cls_acc, correctCount] using
      div_mul_cancel₀ (((((sims.map argmaxL).zip targets).countP
        (fun p => p.1 == p.2) : Nat) : ℚ)) hn

/-- Accumulator invariant of the evaluation loop. -/
def EvalState.wf (st : EvalState) : Prop :=
  st.acc = ((correctCount st.preds st.targets : Nat) : ℚ) ∧
  st.tot = st.targets.length ∧ st.preds.length = st.targets.length

theorem evalStep_wf (st : EvalState) (b : List (List ℚ) × List Nat)
    (hst : st.wf) (hb : b.1.length = b.2.length) : (evalStep st b).wf := by
  obtain ⟨hacc, htot, hlen⟩ := hst
  refine ⟨?_, ?_, ?_⟩
  · show st.acc + cls_acc b.1 b.2 * ((b.1.length : Nat) : ℚ) = _
    rw [hacc, cls_acc_mul_length]
    have hzip : ((st.preds ++ b.1.map argmaxL).zip (st.targets ++ b.2)) =
        st.preds.zip st.targets ++ (b.1.map argmaxL).zip b.2 :=
      List.zip_append hlen
    show _ = ((correctCount (st.preds ++ b.1.map argmaxL) (st.targets ++ b.2) : Nat) : ℚ)
    simp only [correctCount]
    rw [hzip, List.countP_append]
    push_cast
    ring
  · show st.tot + b.1.length = (st.targets ++ b.2).length
    simp [htot, hb]
  · show (st.preds ++ b.1.map argmaxL).length = (st.targets ++ b.2).length
    simp [hlen, hb]

theorem evalFold_go_wf (batches : List (List (List ℚ) × List Nat)) :
    (∀ b ∈ batches, b.1.length = b.2.length) →
    ∀ st : EvalState, st.wf → (batches.foldl evalStep st).wf := by
  induction batches with
  | nil => intro _ st h; exact h
  | cons b rest ih =>
      intro hb st h
      have hb1 : b.1.length = b.2.length := hb b (by simp)
      have hrest : ∀ q ∈ rest, q.1.length = q.2.length :=
        fun q hq => hb q (by simp [hq])
      simp only [List.foldl_cons]
      exact ih hrest (evalStep st b) (evalStep_wf st b h hb1)

theorem evalFold_wf (batches : List (List (List ℚ) × List Nat))
    (hb : ∀ b ∈ batches, b.1.length = b.2.length) :
    (evalFold batches).wf :=
  evalFold_go_wf batches hb ⟨0, 0, [], []⟩ ⟨by simp [correctCount], rfl, rfl⟩

/-! ## Similarity scorer (`eval_model`, lines 62-71)

    cosine_similarity = logit_scale * image_features @ target_features.t()
    pred = cosine_similarity.argmax(dim=-1)

Matrices are embedded as functions `Fin N → Fin D → ℚ`. -/

/-- The score matrix `S[N, K] = logit_scale * Q @ R.t()`. -/
def simScore {N K D : Nat} (logit_scale : ℚ) (Q : Fin N → Fin D → ℚ)
    (R : Fin K → Fin D → ℚ) : Fin N → Fin K → ℚ :=
  fun i k => logit_scale * ∑ j, Q i j * R k j

/-- Embedding of `torch.argmax` over the class axis: the first (lowest) index attaining
the maximum of the row. -/
def argmaxF {K : Nat} (f : Fin (K + 1) → ℚ) : Fin (K + 1) :=
  (Finset.univ.filter (fun k => ∀ j, f j ≤ f k)).min'
    (by
      obtain ⟨m, _, hm⟩ := Finset.exists_max_image Finset.univ f ⟨0, Finset.mem_univ 0⟩
      exact ⟨m, Finset.mem_filter.mpr ⟨Finset.mem_univ m, fun j => hm j (Finset.mem_univ j)⟩⟩)

theorem argmaxF_is_max {K : Nat} (f : Fin (K + 1) → ℚ) (j : Fin (K + 1)) :
    f j ≤ f (argmaxF f) := by
  have hmem := Finset.min'_mem (Finset.univ.filter (fun k => ∀ j, f j ≤ f k))
    (by
      obtain ⟨m, _, hm⟩ := Finset.exists_max_image Finset.univ f ⟨0, Finset.mem_univ 0⟩
      exact ⟨m, Finset.mem_filter.mpr ⟨Finset.mem_univ m, fun j => hm j (Finset.mem_univ j)⟩⟩)
  exact (Finset.mem_filter.mp hmem).2 j

theorem argmaxF_unique {K : Nat} (f : Fin (K + 1) → ℚ) (m : Fin (K + 1))
    (hm : ∀ k, k ≠ m → f k < f m) : argmaxF f = m := by
  have hset : (Finset.univ.filter (fun k => ∀ j, f j ≤ f k)) = {m} := by
    apply Finset.ext
    intro k
    simp only [Finset.mem_filter, Finset.mem_univ, true_and, Finset.mem_singleton]
    constructor
    · intro hk
      by_contra hne
      exact absurd (hk m) (not_le.mpr (hm k hne))
    · intro hk
      subst hk
      intro j
      by_cases hj : j = k
      · subst hj; exact le_refl _
      · exact le_of_lt (hm j hj)
  rw [argmaxF]
  simp only [hset]
  exact Finset.min'_singleton m

theorem argmaxF_const {K : Nat} (c : ℚ) : argmaxF (fun _ : Fin (K + 1) => c) = 0 := by
  have hset : (Finset.univ.filter
      (fun k : Fin (K + 1) => ∀ j : Fin (K + 1), (fun _ => c) j ≤ (fun _ => c) k)) =
      Finset.univ := by
    simp
  rw [argmaxF]
  simp only [hset]
  refine le_antisymm (Finset.min'_le _ 0 (Finset.mem_univ 0)) ?_
  exact Finset.le_min' _ _ 0 (fun y _ => Fin.zero_le y)

/-- C9 counterexample: with a tie in the score row (two identical reference
rows), the first-max prediction does not track the class permutation: the
permuted scores are the permutation of the original scores, yet applying
the permutation to the new argmax does not recover the old argmax. -/
theorem C9_counterexample :
    (∀ k, simScore 1 (fun _ : Fin 1 => fun _ : Fin 1 => (1 : ℚ))
        ((fun _ : Fin 2 => fun _ : Fin 1 => (1 : ℚ)) ∘ (Equiv.swap 0 1)) 0 k =
      simScore 1 (fun _ : Fin 1 => fun _ : Fin 1 => (1 : ℚ))
        (fun _ : Fin 2 => fun _ : Fin 1 => (1 : ℚ)) 0 (Equiv.swap 0 1 k)) ∧
    (Equiv.swap 0 1)
        (argmaxF (simScore 1 (fun _ : Fin 1 => fun _ : Fin 1 => (1 : ℚ))
          ((fun _ : Fin 2 => fun _ : Fin 1 => (1 : ℚ)) ∘ (Equiv.swap 0 1)) 0)) ≠
      argmaxF (simScore 1 (fun _ : Fin 1 => fun _ : Fin 1 => (1 : ℚ))
        (fun _ : Fin 2 => fun _ : Fin 1 => (1 : ℚ)) 0) := by
  constructor
  · intro k; rfl
  · show (Equiv.swap 0 1)
        (argmaxF (fun _ : Fin 2 => (1 : ℚ) * ∑ _j : Fin 1, 1 * 1)) ≠
      argmaxF (fun _ : Fin 2 => (1 : ℚ) * ∑ _j : Fin 1, 1 * 1)
    rw [argmaxF_const]
    decide

/-- C9 (amended): the score matrix is `logit_scale * Q @ R.t()`; row `i`
against the permuted reference set is the permutation of row `i` against
`R`; and whenever row `i` has a unique maximizer the first-max prediction
tracks the permutation. (With ties, first-max tie-breaking defeats
tracking, see the counterexample.) -/
theorem C9_similarity_permutation {N K D : Nat} (logit_scale : ℚ)
    (Q : Fin N → Fin D → ℚ) (R : Fin (K + 1) → Fin D → ℚ)
    (p : Equiv.Perm (Fin (K + 1))) (i : Fin N)
    (huniq : ∀ k, k ≠ argmaxF (simScore logit_scale Q R i) →
      simScore logit_scale Q R i k <
        simScore logit_scale Q R i (argmaxF (simScore logit_scale Q R i))) :
    (∀ k j, simScore logit_scale Q R i k = logit_scale * ∑ d, Q i d * R k d ∧
      simScore logit_scale Q (R ∘ p) i j = simScore logit_scale Q R i (p j)) ∧
    p (argmaxF (simScore logit_scale Q (R ∘ p) i)) =
      argmaxF (simScore logit_scale Q R i) := by
  constructor
  · intro k j; exact ⟨rfl, rfl⟩
  · set f := simScore logit_scale Q R i with hf
    have hcomp : simScore logit_scale Q (R ∘ p) i = fun k => f (p k) := rfl
    rw [hcomp]
    have hmax : argmaxF (fun k => f (p k)) = p.symm (argmaxF f) := by
      apply argmaxF_unique
      intro k hk
      have hpk : p k ≠ argmaxF f := by
        intro hcon
        apply hk
        have := congrArg p.symm hcon
        simpa using this
      have := huniq (p k) hpk
      simpa using this
    rw [hmax]
    simp

/-! ## Training run machine (`train_model`, lines 94-199)

The epoch-level control flow of `train_model`:

    if args.enable_MetaAdapter: ... meta_query = ...; meta_key = ...
    count_iters = 0; best_acc = 0; best_model = model
    while count_iters < total_iters:
        for batch in train_loader: ... count_iters += 1; break at total
        if count_iters < total_iters: print(LR, Acc, Loss)
        acc_val, *_ = eval_model(args, model, logit_scale,
                                 val_loader, val_loader, target_features,
                                 meta_query=meta_query, meta_key=meta_key)
        if acc_val > best_acc:
            best_acc = acc_val; best_model = copy.deepcopy(model).to('cpu')
    best_model = best_model.cuda()
    acc_test, *_ = eval_model(args, best_model, logit_scale,
                              test_loader, val_loader, target_features, ...)
    if args.save_path != None: torch.save(...)

The opaque numeric outcome of each validation call is an oracle
`valAcc : Nat → ℚ`; the live model's parameters are tracked by the number
of optimizer steps applied to them; `best_model` is either an alias of the
live model object (its initial value, line 118) or an independent deep
copy taken at a given step count (line 183).  When
`args.enable_MetaAdapter` is false, the locals `meta_query` / `meta_key`
are never assigned, so evaluating them in the argument list of either
`eval_model` call raises `UnboundLocalError`; when `args.encoder` is
neither `vision` nor `both`, the first training batch already raises
`UnboundLocalError` on `image_features` (see `epochSteps`). -/

inductive BestModel where
  | alias : BestModel
  | snapshot (version : Nat) : BestModel
  deriving DecidableEq

/-- Values that can occupy a positional slot of an `eval_model` call made
by `train_model`. -/
inductive ArgVal where
  | valLoaderArg : ArgVal
  | testLoaderArg : ArgVal
  | targetFeaturesArg : ArgVal
  deriving DecidableEq

/-- The three positional arguments after `logit_scale` in an `eval_model`
call, in the order of `eval_model`'s parameters
`(loader, target_features, support_img_loader)`. -/
structure EvalCallArgs where
  loader : ArgVal
  target_features : ArgVal
  support_img_loader : ArgVal
  deriving DecidableEq

inductive Event where
  | log (epoch : Nat) : Event
  | evalVal (epoch : Nat) (call : EvalCallArgs) : Event
  | evalTest (call : EvalCallArgs) : Event
  | save : Event
  deriving DecidableEq

structure TrainCfg where
  enable_MetaAdapter : Bool
  encoder : String
  n_iters : Nat
  shots : Nat
  numBatches : Nat
  valAcc : Nat → ℚ
  save_path : Bool

def TrainCfg.totalIters (cfg : TrainCfg) : Nat := cfg.n_iters * cfg.shots

structure RunState where
  count : Nat
  liveSteps : Nat
  bestAcc : ℚ
  best : BestModel
  events : List Event

/-- Line 181-183: `if acc_val > best_acc: best_acc = acc_val;
best_model = copy.deepcopy(model).to('cpu')`. -/
def bestStep (bestAcc : ℚ) (best : BestModel) (accVal : ℚ) (liveVer : Nat) :
    ℚ × BestModel :=
  if bestAcc < accVal then (accVal, BestModel.snapshot liveVer) else (bestAcc, best)

/-- Positional layout of the validation call (line 177):
`eval_model(args, model, logit_scale, val_loader, val_loader,
target_features, ...)` — after `logit_scale`, `val_loader` fills both the
`loader` and the `target_features` slots and `target_features` lands in
the `support_img_loader` slot. -/
def valCallArgs : EvalCallArgs :=
  ⟨ArgVal.valLoaderArg, ArgVal.valLoaderArg, ArgVal.targetFeaturesArg⟩

/-- Positional layout of the final test call (line 186). -/
def testCallArgs : EvalCallArgs :=
  ⟨ArgVal.testLoaderArg, ArgVal.valLoaderArg, ArgVal.targetFeaturesArg⟩

/-- One iteration of the outer `while` loop: run the inner `for`
(`epochSteps`); if a batch raised, the epoch stops there (no log, no
validation call).  Otherwise optionally print the epoch summary, then call
`eval_model` on the validation split and update the best checkpoint.
Without the meta-adapter the validation call's keyword arguments reference
the unbound locals and raise. -/
def epochBody (cfg : TrainCfg) (e : Nat) (st : RunState) : RunState × Option PyErr :=
  let total := cfg.totalIters
  match epochSteps cfg.encoder cfg.numBatches st.count total with
  | (count2, some err) =>
      ({ st with count := count2, liveSteps := st.liveSteps + (count2 - st.count) },
       some err)
  | (count2, none) =>
      let live2 := st.liveSteps + (count2 - st.count)
      let ev1 := if count2 < total then st.events ++ [Event.log e] else st.events
      if cfg.enable_MetaAdapter then
        let accVal := cfg.valAcc e
        let bb := bestStep st.bestAcc st.best accVal live2
        (⟨count2, live2, bb.1, bb.2, ev1 ++ [Event.evalVal e valCallArgs]⟩, none)
      else
        (⟨count2, live2, st.bestAcc, st.best, ev1⟩, some (PyErr.unboundLocal "meta_query"))

def runEpochs (cfg : TrainCfg) : Nat → Nat → RunState → RunState × Option PyErr
  | 0, _, st => (st, none)
  | fuel + 1, e, st =>
      if st.count < cfg.totalIters then
        match epochBody cfg e st with
        | (st2, some err) => (st2, some err)
        | (st2, none) => runEpochs cfg fuel (e + 1) st2
      else (st, none)

/-- Lines 185-197: restore the best model to the device, final test
evaluation, optional checkpoint write. -/
def epilogue (cfg : TrainCfg) (st : RunState) : RunState × Option PyErr :=
  if cfg.enable_MetaAdapter then
    ({ st with events := st.events ++ [Event.evalTest testCallArgs] ++
        (if cfg.save_path then [Event.save] else []) }, none)
  else
    (st, some (PyErr.unboundLocal "meta_query"))

def train_model (cfg : TrainCfg) : RunState × Option PyErr :=
  match runEpochs cfg (cfg.totalIters + 1) 0 ⟨0, 0, 0, BestModel.alias, []⟩ with
  | (st, some err) => (st, some err)
  | (st, none) => epilogue cfg st

/-- Which parameter state the final test evaluation sees. -/
inductive TestedModel where
  | live (steps : Nat) : TestedModel
  | copyAt (steps : Nat) : TestedModel
  deriving DecidableEq

def testedModel (st : RunState) : TestedModel :=
  match st.best with
  | BestModel.alias => TestedModel.live st.liveSteps
  | BestModel.snapshot v => TestedModel.copyAt v

theorem runEpochs_error_step (cfg : TrainCfg) (fuel e : Nat) (st : RunState)
    (err : PyErr) (hc : st.count < cfg.totalIters)
    (herr : (epochBody cfg e st).2 = some err) :
    runEpochs cfg (fuel + 1) e st = ((epochBody cfg e st).1, some err) := by
  rcases hep : epochBody cfg e st with ⟨st2, opt⟩
  rw [hep] at herr
  simp only at herr
  subst herr
  simp [runEpochs, hc, hep]

theorem runEpochs_ok_step (cfg : TrainCfg) (fuel e : Nat) (st : RunState)
    (hc : st.count < cfg.totalIters)
    (hok : (epochBody cfg e st).2 = none) :
    runEpochs cfg (fuel + 1) e st = runEpochs cfg fuel (e + 1) (epochBody cfg e st).1 := by
  rcases hep : epochBody cfg e st with ⟨st2, opt⟩
  rw [hep] at hok
  simp only at hok
  subst hok
  simp [runEpochs, hc, hep]

theorem runEpochs_done (cfg : TrainCfg) (fuel e : Nat) (st : RunState)
    (hc : ¬ st.count < cfg.totalIters) :
    runEpochs cfg (fuel + 1) e st = (st, none) := by
  simp [runEpochs, hc]

theorem epochBody_no_binds (cfg : TrainCfg) (e : Nat) (st : RunState)
    (hnb : encoderBindsImages cfg.encoder = false) (hb : 1 ≤ cfg.numBatches) :
    epochBody cfg e st = (st, some (PyErr.unboundLocal "image_features")) := by
  simp [epochBody,
    epochSteps_no_binds cfg.encoder hnb cfg.numBatches st.count cfg.totalIters hb,
    Nat.sub_self]

theorem epochBody_no_meta (cfg : TrainCfg) (e : Nat) (st : RunState)
    (hmeta : cfg.enable_MetaAdapter = false)
    (hbind : encoderBindsImages cfg.encoder = true)
    (hc : st.count < cfg.totalIters) :
    epochBody cfg e st =
      (⟨min (st.count + cfg.numBatches) cfg.totalIters,
        st.liveSteps + (min (st.count + cfg.numBatches) cfg.totalIters - st.count),
        st.bestAcc, st.best,
        if min (st.count + cfg.numBatches) cfg.totalIters < cfg.totalIters then
          st.events ++ [Event.log e] else st.events⟩,
       some (PyErr.unboundLocal "meta_query")) := by
  simp [epochBody,
    epochSteps_binds cfg.encoder hbind cfg.numBatches st.count cfg.totalIters hc, hmeta]

theorem epochBody_meta (cfg : TrainCfg) (e : Nat) (st : RunState)
    (hmeta : cfg.enable_MetaAdapter = true)
    (hbind : encoderBindsImages cfg.encoder = true)
    (hc : st.count < cfg.totalIters) :
    epochBody cfg e st =
      (⟨min (st.count + cfg.numBatches) cfg.totalIters,
        st.liveSteps + (min (st.count + cfg.numBatches) cfg.totalIters - st.count),
        (bestStep st.bestAcc st.best (cfg.valAcc e)
          (st.liveSteps + (min (st.count + cfg.numBatches) cfg.totalIters - st.count))).1,
        (bestStep st.bestAcc st.best (cfg.valAcc e)
          (st.liveSteps + (min (st.count + cfg.numBatches) cfg.totalIters - st.count))).2,
        (if min (st.count + cfg.numBatches) cfg.totalIters < cfg.totalIters then
          st.events ++ [Event.log e] else st.events) ++ [Event.evalVal e valCallArgs]⟩,
       none) := by
  simp [epochBody,
    epochSteps_binds cfg.encoder hbind cfg.numBatches st.count cfg.totalIters hc, hmeta]

/-- C5 counterexample: with `enable_MetaAdapter = False` and
`encoder = 'text'`, the run never reaches the first validation
evaluation: it dies in the first training batch on the unbound local
`image_features` (line 146), with zero optimizer steps and no events —
not with the claimed `meta_query` error at the first validation
evaluation. -/
theorem C5_counterexample :
    (train_model ⟨false, "text", 1, 2, 3, fun _ => 0, true⟩).2 =
      some (PyErr.unboundLocal "image_features") ∧
    (train_model ⟨false, "text", 1, 2, 3, fun _ => 0, true⟩).2 ≠
      some (PyErr.unboundLocal "meta_query") ∧
    (train_model ⟨false, "text", 1, 2, 3, fun _ => 0, true⟩).1.count = 0 ∧
    (train_model ⟨false, "text", 1, 2, 3, fun _ => 0, true⟩).1.liveSteps = 0 ∧
    (train_model ⟨false, "text", 1, 2, 3, fun _ => 0, true⟩).1.events = [] := by
  refine ⟨rfl, by decide, rfl, rfl, rfl⟩

/-- C5 (amended): every training run without the meta-adapter aborts with
an unbound-local-variable error and can never reach best-checkpoint
selection, test evaluation, or checkpoint persistence.  With encoder
`vision` or `both` the abort is the claimed one: `meta_query` is unbound
in the argument list of the first post-epoch validation call, after the
first epoch's `min(numBatches, total_iters)` optimizer steps.  With any
other encoder the run dies even earlier, in the first training batch, on
the unbound local `image_features`, with zero optimizer steps and no
output. -/
theorem C5_no_meta_aborts (cfg : TrainCfg)
    (hmeta : cfg.enable_MetaAdapter = false)
    (hb : 1 ≤ cfg.numBatches) (ht : 1 ≤ cfg.totalIters) :
    ((train_model cfg).1.best = BestModel.alias ∧
      (train_model cfg).1.bestAcc = 0 ∧
      (∀ ev ∈ (train_model cfg).1.events, ∃ e, ev = Event.log e)) ∧
    (encoderBindsImages cfg.encoder = true →
      (train_model cfg).2 = some (PyErr.unboundLocal "meta_query") ∧
      (train_model cfg).1.count = min cfg.numBatches cfg.totalIters) ∧
    (encoderBindsImages cfg.encoder = false →
      (train_model cfg).2 = some (PyErr.unboundLocal "image_features") ∧
      (train_model cfg).1.count = 0 ∧
      (train_model cfg).1.events = []) := by
  obtain ⟨t, ht2⟩ : ∃ t, cfg.totalIters = t + 1 := ⟨cfg.totalIters - 1, by omega⟩
  have hc : (⟨0, 0, 0, BestModel.alias, []⟩ : RunState).count < cfg.totalIters := by
    show 0 < cfg.totalIters
    omega
  cases hbind : encoderBindsImages cfg.encoder
  · have hep := epochBody_no_binds cfg 0 ⟨0, 0, 0, BestModel.alias, []⟩ hbind hb
    have herr : (epochBody cfg 0 ⟨0, 0, 0, BestModel.alias, []⟩).2 =
        some (PyErr.unboundLocal "image_features") := by rw [hep]
    have hrun : train_model cfg =
        ((epochBody cfg 0 ⟨0, 0, 0, BestModel.alias, []⟩).1,
          some (PyErr.unboundLocal "image_features")) := by
      rw [train_model, ht2]
      rw [runEpochs_error_step cfg (t + 1) 0 _ _ (ht2 ▸ hc) herr]
    rw [hrun, hep]
    refine ⟨⟨rfl, rfl, ?_⟩, ?_, fun _ => ⟨rfl, rfl, rfl⟩⟩
    · intro ev hev
      simp at hev
    · intro hcon
      simp at hcon
  · have herr : (epochBody cfg 0 ⟨0, 0, 0, BestModel.alias, []⟩).2 =
        some (PyErr.unboundLocal "meta_query") := by
      rw [epochBody_no_meta cfg 0 _ hmeta hbind hc]
    have hrun : train_model cfg =
        ((epochBody cfg 0 ⟨0, 0, 0, BestModel.alias, []⟩).1,
          some (PyErr.unboundLocal "meta_query")) := by
      rw [train_model, ht2]
      rw [runEpochs_error_step cfg (t + 1) 0 _ _ (ht2 ▸ hc) herr]
    rw [hrun, epochBody_no_meta cfg 0 _ hmeta hbind hc]
    refine ⟨⟨rfl, rfl, ?_⟩, fun _ => ⟨rfl, by simp⟩, ?_⟩
    · intro ev hev
      simp only at hev
      split at hev
      · simp at hev
        exact ⟨0, hev⟩
      · simp at hev
    · intro hcon
      simp at hcon

/-- Witness for C5 (amended) at two concrete configurations: with encoder
`vision` the no-meta run dies with the `meta_query` error after
`min 3 2 = 2` optimizer steps; with encoder `text` it dies with the
`image_features` error after zero steps. -/
theorem C5_no_meta_aborts_witness :
    (⟨false, "vision", 1, 2, 3, fun _ => 0, true⟩ : TrainCfg).enable_MetaAdapter = false ∧
    1 ≤ (⟨false, "vision", 1, 2, 3, fun _ => 0, true⟩ : TrainCfg).numBatches ∧
    1 ≤ (⟨false, "vision", 1, 2, 3, fun _ => 0, true⟩ : TrainCfg).totalIters ∧
    encoderBindsImages "vision" = true ∧
    ((train_model ⟨false, "vision", 1, 2, 3, fun _ => 0, true⟩).2 =
        some (PyErr.unboundLocal "meta_query") ∧
      (train_model ⟨false, "vision", 1, 2, 3, fun _ => 0, true⟩).1.count =
        min 3 (1 * 2)) ∧
    encoderBindsImages "text" = false ∧
    ((train_model ⟨false, "text", 1, 2, 3, fun _ => 0, true⟩).2 =
        some (PyErr.unboundLocal "image_features") ∧
      (train_model ⟨false, "text", 1, 2, 3, fun _ => 0, true⟩).1.count = 0 ∧
      (train_model ⟨false, "text", 1, 2, 3, fun _ => 0, true⟩).1.events = []) :=
  ⟨rfl, by decide, by decide, by decide,
    (C5_no_meta_aborts ⟨false, "vision", 1, 2, 3, fun _ => 0, true⟩ rfl
      (by decide) (by decide)).2.1 (by decide),
    by decide,
    (C5_no_meta_aborts ⟨false, "text", 1, 2, 3, fun _ => 0, true⟩ rfl
      (by decide) (by decide)).2.2 (by decide)⟩

theorem epochBody_err_none (cfg : TrainCfg) (e : Nat) (st : RunState)
    (hmeta : cfg.enable_MetaAdapter = true)
    (hbind : encoderBindsImages cfg.encoder = true)
    (hc : st.count < cfg.totalIters) : (epochBody cfg e st).2 = none := by
  rw [epochBody_meta cfg e st hmeta hbind hc]

theorem epochBody_bestAcc_le (cfg : TrainCfg) (e : Nat) (st : RunState) :
    st.bestAcc ≤ ((epochBody cfg e st).1).bestAcc := by
  rcases hst : epochSteps cfg.encoder cfg.numBatches st.count cfg.totalIters with ⟨c2, opt⟩
  cases opt with
  | some err => simp [epochBody, hst]
  | none =>
      cases hm : cfg.enable_MetaAdapter
      · simp [epochBody, hst, hm]
      · have hproj : ((epochBody cfg e st).1).bestAcc =
            (bestStep st.bestAcc st.best (cfg.valAcc e)
              (st.liveSteps + (c2 - st.count))).1 := by
          simp [epochBody, hst, hm]
        rw [hproj, bestStep]
        split_ifs with h
        · exact le_of_lt h
        · exact le_refl _

theorem runEpochs_bestAcc_mono (cfg : TrainCfg) :
    ∀ fuel e st, st.bestAcc ≤ ((runEpochs cfg fuel e st).1).bestAcc := by
  intro fuel
  induction fuel with
  | zero => intro e st; exact le_refl _
  | succ fuel ih =>
      intro e st
      by_cases hc : st.count < cfg.totalIters
      · rcases hep : epochBody cfg e st with ⟨st2, opt⟩
        have hle : st.bestAcc ≤ st2.bestAcc := by
          have := epochBody_bestAcc_le cfg e st
          rw [hep] at this
          exact this
        cases opt with
        | some err =>
            rw [runEpochs_error_step cfg fuel e st err hc (by rw [hep]), hep]
            exact hle
        | none =>
            rw [runEpochs_ok_step cfg fuel e st hc (by rw [hep]), hep]
            exact le_trans hle (ih (e + 1) st2)
      · rw [runEpochs_done cfg fuel e st hc]

/-- C8: the recorded best validation accuracy is non-decreasing across any
run of epochs, and the best checkpoint is replaced exactly when the
epoch's validation accuracy strictly exceeds the best seen so far: on
strict improvement the pair becomes `(acc_val, deepcopy-at-current-step)`,
on a tie or decrease both the recorded best and the snapshot are left
unchanged. -/
theorem C8_best_checkpoint_monotone (cfg : TrainCfg) (fuel e : Nat) (st : RunState)
    (b : ℚ) (m : BestModel) (a : ℚ) (v : Nat) :
    st.bestAcc ≤ ((runEpochs cfg fuel e st).1).bestAcc ∧
    (b < a → bestStep b m a v = (a, BestModel.snapshot v)) ∧
    (¬ b < a → bestStep b m a v = (b, m)) := by
  refine ⟨runEpochs_bestAcc_mono cfg fuel e st, ?_, ?_⟩
  · intro h; simp [bestStep, h]
  · intro h; simp [bestStep, h]

/-- Witness for C8: a two-epoch concrete run, a strict improvement
(`0 < 1` replaces the snapshot) and a tie (`¬ 1 < 1` leaves it). -/
theorem C8_best_checkpoint_monotone_witness :
    (⟨0, 0, 0, BestModel.alias, []⟩ : RunState).bestAcc ≤
      ((runEpochs ⟨true, "vision", 1, 1, 1, fun _ => 0, false⟩ 2 0
        ⟨0, 0, 0, BestModel.alias, []⟩).1).bestAcc ∧
    ((0 : ℚ) < 1 ∧ bestStep 0 BestModel.alias 1 5 = (1, BestModel.snapshot 5)) ∧
    (¬ (1 : ℚ) < 1 ∧ bestStep 1 (BestModel.snapshot 5) 1 7 = (1, BestModel.snapshot 5)) :=
  ⟨(C8_best_checkpoint_monotone ⟨true, "vision", 1, 1, 1, fun _ => 0, false⟩ 2 0
      ⟨0, 0, 0, BestModel.alias, []⟩ 0 BestModel.alias 1 5).1,
   ⟨by norm_num,
    (C8_best_checkpoint_monotone ⟨true, "vision", 1, 1, 1, fun _ => 0, false⟩ 2 0
      ⟨0, 0, 0, BestModel.alias, []⟩ 0 BestModel.alias 1 5).2.1 (by norm_num)⟩,
   ⟨by norm_num,
    (C8_best_checkpoint_monotone ⟨true, "vision", 1, 1, 1, fun _ => 0, false⟩ 2 0
      ⟨0, 0, 0, BestModel.alias, []⟩ 1 (BestModel.snapshot 5) 1 7).2.2 (by norm_num)⟩⟩

theorem epochBody_snapshot_persists (cfg : TrainCfg) (e : Nat) (st : RunState)
    (v : Nat) (hv : st.best = BestModel.snapshot v) :
    ∃ w, ((epochBody cfg e st).1).best = BestModel.snapshot w := by
  rcases hst : epochSteps cfg.encoder cfg.numBatches st.count cfg.totalIters with ⟨c2, opt⟩
  cases opt with
  | some err =>
      have hproj : ((epochBody cfg e st).1).best = st.best := by
        simp [epochBody, hst]
      rw [hproj]
      exact ⟨v, hv⟩
  | none =>
      cases hm : cfg.enable_MetaAdapter
      · have hproj : ((epochBody cfg e st).1).best = st.best := by
          simp [epochBody, hst, hm]
        rw [hproj]
        exact ⟨v, hv⟩
      · have hproj : ((epochBody cfg e st).1).best =
            (bestStep st.bestAcc st.best (cfg.valAcc e)
              (st.liveSteps + (c2 - st.count))).2 := by
          simp [epochBody, hst, hm]
        rw [hproj, bestStep]
        split_ifs
        · exact ⟨_, rfl⟩
        · exact ⟨v, hv⟩

theorem runEpochs_snapshot_persists (cfg : TrainCfg) :
    ∀ fuel e st v, st.best = BestModel.snapshot v →
      ∃ w, ((runEpochs cfg fuel e st).1).best = BestModel.snapshot w := by
  intro fuel
  induction fuel with
  | zero => intro e st v hv; exact ⟨v, hv⟩
  | succ fuel ih =>
      intro e st v hv
      by_cases hc : st.count < cfg.totalIters
      · rcases hep : epochBody cfg e st with ⟨st2, opt⟩
        obtain ⟨w, hw⟩ := epochBody_snapshot_persists cfg e st v hv
        rw [hep] at hw
        cases opt with
        | some err =>
            rw [runEpochs_error_step cfg fuel e st err hc (by rw [hep]), hep]
            exact ⟨w, hw⟩
        | none =>
            rw [runEpochs_ok_step cfg fuel e st hc (by rw [hep]), hep]
            exact ih (e + 1) st2 w hw
      · rw [runEpochs_done cfg fuel e st hc]
        exact ⟨v, hv⟩

theorem runEpochs_err_none (cfg : TrainCfg)
    (hmeta : cfg.enable_MetaAdapter = true)
    (hbind : encoderBindsImages cfg.encoder = true) :
    ∀ fuel e st, (runEpochs cfg fuel e st).2 = none := by
  intro fuel
  induction fuel with
  | zero => intro e st; rfl
  | succ fuel ih =>
      intro e st
      by_cases hc : st.count < cfg.totalIters
      · rw [runEpochs_ok_step cfg fuel e st hc
          (epochBody_err_none cfg e st hmeta hbind hc)]
        exact ih (e + 1) _
      · rw [runEpochs_done cfg fuel e st hc]

theorem epilogue_meta (cfg : TrainCfg) (st : RunState)
    (hmeta : cfg.enable_MetaAdapter = true) :
    epilogue cfg st =
      ({ st with events := st.events ++ [Event.evalTest testCallArgs] ++
          (if cfg.save_path then [Event.save] else []) }, none) := by
  simp [epilogue, hmeta]

theorem train_model_eq_epilogue (cfg : TrainCfg)
    (hnone : (runEpochs cfg (cfg.totalIters + 1) 0 ⟨0, 0, 0, BestModel.alias, []⟩).2 = none) :
    train_model cfg =
      epilogue cfg (runEpochs cfg (cfg.totalIters + 1) 0 ⟨0, 0, 0, BestModel.alias, []⟩).1 := by
  rcases hres : runEpochs cfg (cfg.totalIters + 1) 0 ⟨0, 0, 0, BestModel.alias, []⟩ with ⟨stf, opt⟩
  rw [hres] at hnone
  simp only at hnone
  subst hnone
  rw [train_model, hres]

theorem runEpochs_count_total (cfg : TrainCfg)
    (hmeta : cfg.enable_MetaAdapter = true)
    (hbind : encoderBindsImages cfg.encoder = true)
    (hb : 1 ≤ cfg.numBatches) :
    ∀ fuel e st, st.count ≤ cfg.totalIters → cfg.totalIters - st.count ≤ fuel →
      st.liveSteps = st.count →
      ((runEpochs cfg fuel e st).1).count = cfg.totalIters ∧
      ((runEpochs cfg fuel e st).1).liveSteps = cfg.totalIters := by
  intro fuel
  induction fuel with
  | zero =>
      intro e st h1 h2 h3
      have hdone : st.count = cfg.totalIters := by omega
      exact ⟨hdone, h3.trans hdone⟩
  | succ fuel ih =>
      intro e st h1 h2 h3
      by_cases hc : st.count < cfg.totalIters
      · rw [runEpochs_ok_step cfg fuel e st hc
          (epochBody_err_none cfg e st hmeta hbind hc)]
        have hepoch := epochBody_meta cfg e st hmeta hbind hc
        have hcount2 : ((epochBody cfg e st).1).count =
            min (st.count + cfg.numBatches) cfg.totalIters := by rw [hepoch]
        have hlive2 : ((epochBody cfg e st).1).liveSteps =
            st.liveSteps +
              (min (st.count + cfg.numBatches) cfg.totalIters - st.count) := by
          rw [hepoch]
        apply ih (e + 1) ((epochBody cfg e st).1)
        · omega
        · omega
        · rw [hcount2, hlive2, h3]
          omega
      · have hdone : st.count = cfg.totalIters := by omega
        rw [runEpochs_done cfg fuel e st hc]
        exact ⟨hdone, h3.trans hdone⟩

theorem runEpochs_valAcc_le (cfg : TrainCfg)
    (hmeta : cfg.enable_MetaAdapter = true)
    (hbind : encoderBindsImages cfg.encoder = true) :
    ∀ fuel e0 st e, e0 ≤ e → e - e0 < fuel →
      st.count + (e - e0) * cfg.numBatches < cfg.totalIters →
      cfg.valAcc e ≤ ((runEpochs cfg fuel e0 st).1).bestAcc := by
  intro fuel
  induction fuel with
  | zero => intro e0 st e h1 h2 h3; omega
  | succ fuel ih =>
      intro e0 st e h1 h2 h3
      have hc : st.count < cfg.totalIters := by omega
      rw [runEpochs_ok_step cfg fuel e0 st hc
        (epochBody_err_none cfg e0 st hmeta hbind hc)]
      have hepoch := epochBody_meta cfg e0 st hmeta hbind hc
      rcases Nat.lt_or_ge e0 e with he | he
      · apply ih (e0 + 1) ((epochBody cfg e0 st).1) e (by omega) (by omega)
        have hcount2 : ((epochBody cfg e0 st).1).count =
            min (st.count + cfg.numBatches) cfg.totalIters := by rw [hepoch]
        rw [hcount2]
        have h5 : e - e0 = (e - (e0 + 1)) + 1 := by omega
        rw [h5] at h3
        have h6 : ((e - (e0 + 1)) + 1) * cfg.numBatches =
            cfg.numBatches + (e - (e0 + 1)) * cfg.numBatches := by ring
        rw [h6] at h3
        omega
      · have heq : e0 = e := by omega
        subst heq
        have hge : cfg.valAcc e0 ≤ ((epochBody cfg e0 st).1).bestAcc := by
          rw [hepoch]
          show cfg.valAcc e0 ≤ (bestStep st.bestAcc st.best (cfg.valAcc e0) _).1
          rw [bestStep]
          split_ifs with h
          · exact le_refl _
          · exact not_lt.mp h
        exact le_trans hge (runEpochs_bestAcc_mono cfg fuel (e0 + 1) _)

theorem epochBody_pos_snapshot (cfg : TrainCfg) (e : Nat) (st : RunState)
    (hinv : 0 < st.bestAcc → ∃ v, st.best = BestModel.snapshot v) :
    0 < ((epochBody cfg e st).1).bestAcc →
      ∃ v, ((epochBody cfg e st).1).best = BestModel.snapshot v := by
  rcases hst : epochSteps cfg.encoder cfg.numBatches st.count cfg.totalIters with ⟨c2, opt⟩
  cases opt with
  | some err =>
      have hA : ((epochBody cfg e st).1).bestAcc = st.bestAcc := by
        simp [epochBody, hst]
      have hB : ((epochBody cfg e st).1).best = st.best := by
        simp [epochBody, hst]
      rw [hA, hB]
      exact hinv
  | none =>
      cases hm : cfg.enable_MetaAdapter
      · have hA : ((epochBody cfg e st).1).bestAcc = st.bestAcc := by
          simp [epochBody, hst, hm]
        have hB : ((epochBody cfg e st).1).best = st.best := by
          simp [epochBody, hst, hm]
        rw [hA, hB]
        exact hinv
      · have hA : ((epochBody cfg e st).1).bestAcc =
            (bestStep st.bestAcc st.best (cfg.valAcc e)
              (st.liveSteps + (c2 - st.count))).1 := by
          simp [epochBody, hst, hm]
        have hB : ((epochBody cfg e st).1).best =
            (bestStep st.bestAcc st.best (cfg.valAcc e)
              (st.liveSteps + (c2 - st.count))).2 := by
          simp [epochBody, hst, hm]
        rw [hA, hB, bestStep]
        split_ifs with h
        · intro _
          exact ⟨_, rfl⟩
        · exact hinv

theorem runEpochs_pos_snapshot (cfg : TrainCfg) :
    ∀ fuel e st, (0 < st.bestAcc → ∃ v, st.best = BestModel.snapshot v) →
      0 < ((runEpochs cfg fuel e st).1).bestAcc →
      ∃ v, ((runEpochs cfg fuel e st).1).best = BestModel.snapshot v := by
  intro fuel
  induction fuel with
  | zero => intro e st h; exact h
  | succ fuel ih =>
      intro e st hinv
      by_cases hc : st.count < cfg.totalIters
      · rcases hep : epochBody cfg e st with ⟨st2, opt⟩
        have hstep := epochBody_pos_snapshot cfg e st hinv
        rw [hep] at hstep
        cases opt with
        | some err =>
            rw [runEpochs_error_step cfg fuel e st err hc (by rw [hep]), hep]
            exact hstep
        | none =>
            rw [runEpochs_ok_step cfg fuel e st hc (by rw [hep]), hep]
            exact ih (e + 1) st2 hstep
      · rw [runEpochs_done cfg fuel e st hc]
        exact hinv

/-- C1 counterexample: at the spec's own scenario (`n_iters = 2`,
`shots = 4`, a loader of 3 batches) but with `encoder = 'text'`, the
first training batch raises `UnboundLocalError` on `image_features`
(line 146) before any optimizer step: the run aborts having performed 0
optimizer steps, instead of performing the claimed `total_iters = 8` and
terminating. -/
theorem C1_counterexample :
    (train_model ⟨true, "text", 2, 4, 3, fun _ => 0, false⟩).2 =
      some (PyErr.unboundLocal "image_features") ∧
    (train_model ⟨true, "text", 2, 4, 3, fun _ => 0, false⟩).1.liveSteps = 0 ∧
    (train_model ⟨true, "text", 2, 4, 3, fun _ => 0, false⟩).1.count = 0 ∧
    (train_model ⟨true, "text", 2, 4, 3, fun _ => 0, false⟩).1.events = [] := by
  refine ⟨rfl, rfl, rfl, rfl⟩

/-- C1 (amended): in every configuration whose encoder is `vision` or
`both` (so the per-batch forward binds `image_features`) and whose
meta-adapter is enabled (so the post-epoch validation call is well
defined), for every non-empty training loader the run performs exactly
`total_iters = n_iters * shots` optimizer steps and then terminates
normally, regardless of the loader's length; within an epoch the counter
advances by one per processed batch and is capped at `total_iters`,
truncating (not padding) a partial final epoch. -/
theorem C1_train_total_iters (cfg : TrainCfg)
    (hbind : encoderBindsImages cfg.encoder = true)
    (hmeta : cfg.enable_MetaAdapter = true)
    (hb : 1 ≤ cfg.numBatches) :
    (train_model cfg).1.count = cfg.totalIters ∧
    (train_model cfg).1.liveSteps = cfg.totalIters ∧
    (train_model cfg).2 = none ∧
    (∀ count, count < cfg.totalIters →
      epochSteps cfg.encoder cfg.numBatches count cfg.totalIters =
        (min (count + cfg.numBatches) cfg.totalIters, none)) := by
  have hrun := runEpochs_count_total cfg hmeta hbind hb (cfg.totalIters + 1) 0
    ⟨0, 0, 0, BestModel.alias, []⟩ (Nat.zero_le _) (by omega) rfl
  have htm := train_model_eq_epilogue cfg (runEpochs_err_none cfg hmeta hbind _ _ _)
  rw [htm, epilogue_meta cfg _ hmeta]
  refine ⟨?_, ?_, rfl, ?_⟩
  · show ((runEpochs cfg (cfg.totalIters + 1) 0
        ⟨0, 0, 0, BestModel.alias, []⟩).1).count = _
    exact hrun.1
  · show ((runEpochs cfg (cfg.totalIters + 1) 0
        ⟨0, 0, 0, BestModel.alias, []⟩).1).liveSteps = _
    exact hrun.2
  · intro count hcnt
    exact epochSteps_binds cfg.encoder hbind cfg.numBatches count cfg.totalIters hcnt

/-- Witness for C1 (amended) at the spec's scenario with
`encoder = 'vision'`: exactly 8 optimizer steps, normal termination, and
the third epoch (starting at counter 6) truncated after 2 of its 3
batches. -/
theorem C1_train_total_iters_witness :
    encoderBindsImages "vision" = true ∧
    (⟨true, "vision", 2, 4, 3, fun _ => 0, false⟩ : TrainCfg).enable_MetaAdapter = true ∧
    1 ≤ (⟨true, "vision", 2, 4, 3, fun _ => 0, false⟩ : TrainCfg).numBatches ∧
    ((train_model ⟨true, "vision", 2, 4, 3, fun _ => 0, false⟩).1.count = 2 * 4 ∧
     (train_model ⟨true, "vision", 2, 4, 3, fun _ => 0, false⟩).1.liveSteps = 2 * 4 ∧
     (train_model ⟨true, "vision", 2, 4, 3, fun _ => 0, false⟩).2 = none ∧
     epochSteps "vision" 3 6 (2 * 4) = (min (6 + 3) (2 * 4), none)) :=
  have h := C1_train_total_iters ⟨true, "vision", 2, 4, 3, fun _ => 0, false⟩
    (by decide) rfl (by decide)
  ⟨by decide, rfl, by decide, h.1, h.2.1, h.2.2.1, h.2.2.2 6 (by decide)⟩

/-- C7 counterexample: meta-adapter on, encoder `vision`,
`total_iters = 3`, one batch per epoch, every validation accuracy equal
to `0` (never strictly above the initial `best_acc = 0`).  The run
completes, yet the final "best checkpoint" is still the initial
`best_model = model` alias — it shares all mutable parameter state with
the live model — and the final test evaluation therefore runs on the live
model mutated by all 3 optimizer steps, not on an independent snapshot. -/
theorem C7_counterexample :
    (train_model ⟨true, "vision", 1, 3, 1, fun _ => 0, false⟩).1.best =
      BestModel.alias ∧
    testedModel (train_model ⟨true, "vision", 1, 3, 1, fun _ => 0, false⟩).1 =
      TestedModel.live 3 ∧
    (train_model ⟨true, "vision", 1, 3, 1, fun _ => 0, false⟩).2 = none := by
  refine ⟨?_, ?_, ?_⟩ <;> rfl

/-- C7 (amended): in a configuration that reaches its validation calls
(meta-adapter enabled, encoder `vision` or `both`), once some reached
epoch's validation accuracy strictly exceeds the best so far —
equivalently, some epoch `e` with `e * numBatches < total_iters` has
positive accuracy — the best checkpoint is an independent snapshot: a
deep copy taken at a definite optimizer-step count `v`, which later
optimizer steps on the live model never touch; the run completes without
error and the final test evaluation runs on that snapshot (`copyAt v`),
not on the live model.  Before any strict improvement, however,
`best_model` is an alias of the live model (see the counterexample). -/
theorem C7_snapshot_independent (cfg : TrainCfg)
    (hmeta : cfg.enable_MetaAdapter = true)
    (hbind : encoderBindsImages cfg.encoder = true)
    (hb : 1 ≤ cfg.numBatches)
    (e : Nat) (he : e * cfg.numBatches < cfg.totalIters)
    (hpos : 0 < cfg.valAcc e) :
    ∃ v, (train_model cfg).1.best = BestModel.snapshot v ∧
      testedModel (train_model cfg).1 = TestedModel.copyAt v ∧
      (train_model cfg).2 = none := by
  have hfuel : e - 0 < cfg.totalIters + 1 := by
    have h1 : e * 1 ≤ e * cfg.numBatches := Nat.mul_le_mul_left e hb
    omega
  have hreach : (⟨0, 0, 0, BestModel.alias, []⟩ : RunState).count +
      (e - 0) * cfg.numBatches < cfg.totalIters := by
    show 0 + (e - 0) * cfg.numBatches < cfg.totalIters
    simpa using he
  have hA := runEpochs_valAcc_le cfg hmeta hbind (cfg.totalIters + 1) 0
    ⟨0, 0, 0, BestModel.alias, []⟩ e (Nat.zero_le e) hfuel hreach
  have hposF : 0 < ((runEpochs cfg (cfg.totalIters + 1) 0
      ⟨0, 0, 0, BestModel.alias, []⟩).1).bestAcc := lt_of_lt_of_le hpos hA
  obtain ⟨v, hv⟩ := runEpochs_pos_snapshot cfg (cfg.totalIters + 1) 0
    ⟨0, 0, 0, BestModel.alias, []⟩ (fun h => absurd h (lt_irrefl 0)) hposF
  have htm := train_model_eq_epilogue cfg (runEpochs_err_none cfg hmeta hbind _ _ _)
  rw [htm, epilogue_meta cfg _ hmeta]
  refine ⟨v, hv, ?_, rfl⟩
  show testedModel { (runEpochs cfg (cfg.totalIters + 1) 0
      ⟨0, 0, 0, BestModel.alias, []⟩).1 with events := _ } = TestedModel.copyAt v
  rw [testedModel]
  simp only [hv]

/-- Witness for C7 (amended) at a concrete configuration in which the
strict improvement happens at epoch 1, not at the first epoch:
meta-adapter on, encoder `vision`, `total_iters = 3`, one batch per
epoch, validation accuracies `0, 1, 0, ...`. -/
theorem C7_snapshot_independent_witness :
    (⟨true, "vision", 1, 3, 1, fun e => if e = 1 then 1 else 0, false⟩ :
      TrainCfg).enable_MetaAdapter = true ∧
    encoderBindsImages "vision" = true ∧
    1 ≤ (⟨true, "vision", 1, 3, 1, fun e => if e = 1 then 1 else 0, false⟩ :
      TrainCfg).numBatches ∧
    1 * (⟨true, "vision", 1, 3, 1, fun e => if e = 1 then 1 else 0, false⟩ :
      TrainCfg).numBatches <
      (⟨true, "vision", 1, 3, 1, fun e => if e = 1 then 1 else 0, false⟩ :
        TrainCfg).totalIters ∧
    (0 : ℚ) < (⟨true, "vision", 1, 3, 1, fun e => if e = 1 then 1 else 0, false⟩ :
      TrainCfg).valAcc 1 ∧
    (∃ v, (train_model ⟨true, "vision", 1, 3, 1,
        fun e => if e = 1 then 1 else 0, false⟩).1.best = BestModel.snapshot v ∧
      testedModel (train_model ⟨true, "vision", 1, 3, 1,
        fun e => if e = 1 then 1 else 0, false⟩).1 = TestedModel.copyAt v ∧
      (train_model ⟨true, "vision", 1, 3, 1,
        fun e => if e = 1 then 1 else 0, false⟩).2 = none) :=
  ⟨rfl, by decide, by decide, by decide, by decide,
    C7_snapshot_independent
      ⟨true, "vision", 1, 3, 1, fun e => if e = 1 then 1 else 0, false⟩
      rfl (by decide) (by decide) 1 (by decide) (by decide)⟩

/-- C4 evaluated at a failing input (`total_iters = 3`, 2 batches per
epoch, meta-adapter on, encoder `vision`): the run's event trace is

    [log 0, evalVal 0, evalVal 1, evalTest]

Epoch 1 was truncated mid-epoch by the iteration budget (no `log 1`), yet
the validation evaluation still ran after it; and every validation call
passes `val_loader` in `eval_model`'s `target_features` slot (the Target
Feature Set lands in the `support_img_loader` slot) — contradicting the
claim that evaluation happens only after completed epochs with the Target
Feature Set as the target-feature argument. -/
theorem C4_post_epoch_eval_trace :
    (train_model ⟨true, "vision", 1, 3, 2, fun _ => 0, false⟩).1.events =
      [Event.log 0, Event.evalVal 0 valCallArgs,
       Event.evalVal 1 valCallArgs, Event.evalTest testCallArgs] ∧
    valCallArgs.target_features = ArgVal.valLoaderArg ∧
    valCallArgs.target_features ≠ ArgVal.targetFeaturesArg ∧
    valCallArgs.support_img_loader = ArgVal.targetFeaturesArg ∧
    Event.log 1 ∉ (train_model ⟨true, "vision", 1, 3, 2, fun _ => 0, false⟩).1.events := by
  refine ⟨rfl, rfl, by decide, rfl, by decide⟩

/-- C3: the accuracy produced by the evaluation loop's weighted
accumulation equals the direct one-shot mean of
`(prediction == target)` over the concatenated output arrays, and the
accumulation scheme at batch sizes `[3, 3, 3, 1]` with per-batch
accuracies `[1, 1/2, 1, 0]` yields exactly `3/4`. -/
theorem C3_accuracy_roundtrip (batches : List (List (List ℚ) × List Nat))
    (hb : ∀ b ∈ batches, b.1.length = b.2.length) :
    evalAccuracy batches =
      oneShotAccuracy (evalFold batches).preds (evalFold batches).targets ∧
    weightedAccuracy [((1 : ℚ), 3), (1 / 2, 3), (1, 3), (0, 1)] = 3 / 4 := by
  constructor
  · obtain ⟨hacc, htot, _⟩ := evalFold_wf batches hb
    rw [evalAccuracy, oneShotAccuracy, hacc, htot]
  · norm_num [weightedAccuracy]

/-- Concrete loader contents for the C3 witness: two batches of sizes 3
and 2, with one misprediction in the second batch. -/
def demoBatches : List (List (List ℚ) × List Nat) :=
  [([[1, 0], [1, 0], [0, 1]], [0, 0, 1]),
   ([[1, 0], [0, 1]], [0, 0])]

/-- Witness for C3: on `demoBatches` the loop's weighted accumulation and
the one-shot mean agree (both are `4/5`), and the spec's scenario value is
`3/4`. -/
theorem C3_accuracy_roundtrip_witness :
    (∀ b ∈ demoBatches, b.1.length = b.2.length) ∧
    (evalAccuracy demoBatches =
      oneShotAccuracy (evalFold demoBatches).preds (evalFold demoBatches).targets ∧
    weightedAccuracy [((1 : ℚ), 3), (1 / 2, 3), (1, 3), (0, 1)] = 3 / 4) :=
  ⟨by decide, C3_accuracy_roundtrip demoBatches (by decide)⟩

/-! ## `eval_model` configuration guard (lines 35-36)

    if (meta_key is None or meta_query is None) and support_img_loader is None:
        raise ValueError("Neither support_img_loader nor (meta_key and "
                         "meta_query) provided. Please provide one of them.")

This guard is the first statement of `eval_model`, before `model.eval()`,
before any feature extraction and before the evaluation loop.  The
function's subsequent work is abstracted to the number of loader batches
it would process. -/

def eval_model_run {L T B : Type} (support_img_loader : Option L)
    (meta_query meta_key : Option T) (loader : List B) : Except String Nat :=
  if (meta_key.isNone || meta_query.isNone) && support_img_loader.isNone then
    Except.error
      "Neither support_img_loader nor (meta_key and meta_query) provided. Please provide one of them."
  else
    Except.ok loader.length

/-- C6: when neither a support loader nor both of `meta_query`/`meta_key`
are provided, `eval_model` fails with the `ValueError` naming the two
alternatives, and it does so before processing any batch: the result is
the same for every loader, including the empty one.  No default is
substituted — the call returns the error, not a result. -/
theorem C6_eval_guard {L T B : Type} (support_img_loader : Option L)
    (meta_query meta_key : Option T) (loader : List B)
    (hs : support_img_loader = none)
    (hq : meta_query = none ∨ meta_key = none) :
    eval_model_run support_img_loader meta_query meta_key loader =
      Except.error
        "Neither support_img_loader nor (meta_key and meta_query) provided. Please provide one of them." ∧
    eval_model_run support_img_loader meta_query meta_key loader =
      eval_model_run support_img_loader meta_query meta_key ([] : List B) := by
  subst hs
  have hcond : ((meta_key.isNone || meta_query.isNone) &&
      (none : Option L).isNone) = true := by
    rcases hq with h | h <;> subst h <;> simp
  constructor <;> simp only [eval_model_run, if_pos hcond]

/-- Witness for C6: meta-adapter evaluation with no support loader and no
query/key pair errors out on a 3-batch loader, identically to the empty
loader. -/
theorem C6_eval_guard_witness :
    ((none : Option Nat) = none ∧
      ((none : Option Nat) = none ∨ (none : Option Nat) = none)) ∧
    (eval_model_run (none : Option Nat) (none : Option Nat) (none : Option Nat)
        [1, 2, 3] =
      Except.error
        "Neither support_img_loader nor (meta_key and meta_query) provided. Please provide one of them." ∧
    eval_model_run (none : Option Nat) (none : Option Nat) (none : Option Nat)
        [1, 2, 3] =
      eval_model_run (none : Option Nat) (none : Option Nat) (none : Option Nat)
        ([] : List Nat)) :=
  ⟨⟨rfl, Or.inl rfl⟩,
    C6_eval_guard (none : Option Nat) (none : Option Nat) (none : Option Nat)
      [1, 2, 3] rfl (Or.inl rfl)⟩

/-! ## Target feature recomputation (`train_model`, lines 129-132)

    if (args.enable_lora and task_type == 'image2text'
            and (args.encoder == 'text' or args.encoder == 'both')) or \
       (args.enable_lora and task_type == 'image2image'
            and (args.encoder == 'vision' or args.encoder == 'both')) or \
       (args.enable_BitFit):
        target_features = get_text_target_features(model, dataset) \
            if task_type == 'image2text' else get_vision_target_features(model, target_loader)
-/

structure AdaptArgs where
  enable_lora : Bool
  enable_BitFit : Bool
  encoder : String

def recomputeTargets (args : AdaptArgs) (task_type : String) : Bool :=
  (args.enable_lora && task_type == "image2text" &&
    (args.encoder == "text" || args.encoder == "both")) ||
  (args.enable_lora && task_type == "image2image" &&
    (args.encoder == "vision" || args.encoder == "both")) ||
  args.enable_BitFit

/-- Per-step effect on `target_features`: replaced by the freshly derived
features when the guard holds, otherwise left as it was. -/
def stepTargetFeatures {α : Type} (args : AdaptArgs) (task_type : String)
    (recomputed current : α) : α :=
  if recomputeTargets args task_type then recomputed else current

/-- Value of `target_features` after `n` training steps, where `recomputedAt i` is
the value `get_*_target_features` would produce at step `i`. -/
def targetFeaturesAfter {α : Type} (args : AdaptArgs) (task_type : String)
    (recomputedAt : Nat → α) (tf0 : α) : Nat → α
  | 0 => tf0
  | n + 1 => stepTargetFeatures args task_type (recomputedAt n)
      (targetFeaturesAfter args task_type recomputedAt tf0 n)

/-- C10: the Target Feature Set is recomputed in a training step exactly
under (LoRA and image2text and encoder text-or-both) or
(LoRA and image2image and encoder vision-or-both) or BitFit; when the
guard holds every step replaces it with the freshly derived features, and
in every other configuration the value passed in is held unchanged for the
whole training loop. -/
theorem C10_target_recompute (args : AdaptArgs) (task_type : String) :
    (recomputeTargets args task_type = true ↔
      ((args.enable_lora = true ∧ task_type = "image2text" ∧
        (args.encoder = "text" ∨ args.encoder = "both")) ∨
       (args.enable_lora = true ∧ task_type = "image2image" ∧
        (args.encoder = "vision" ∨ args.encoder = "both")) ∨
       args.enable_BitFit = true)) ∧
    (recomputeTargets args task_type = true →
      ∀ (α : Type) (recomputedAt : Nat → α) (tf0 : α) (n : Nat),
        targetFeaturesAfter args task_type recomputedAt tf0 (n + 1) = recomputedAt n) ∧
    (recomputeTargets args task_type = false →
      ∀ (α : Type) (recomputedAt : Nat → α) (tf0 : α) (n : Nat),
        targetFeaturesAfter args task_type recomputedAt tf0 n = tf0) := by
  refine ⟨?_, ?_, ?_⟩
  · simp [recomputeTargets, Bool.or_eq_true, Bool.and_eq_true, beq_iff_eq,
      and_assoc, or_assoc]
  · intro h α recomputedAt tf0 n
    simp [targetFeaturesAfter, stepTargetFeatures, h]
  · intro h α recomputedAt tf0 n
    induction n with
    | zero => rfl
    | succ n ih =>
        simp [targetFeaturesAfter, stepTargetFeatures, h, ih]

/-- Witness for C10: with LoRA off and BitFit off the target features are
unchanged after 3 steps; with LoRA on, task `image2text`, encoder `text`,
each step replaces them with the step's recomputed value. -/
theorem C10_target_recompute_witness :
    recomputeTargets ⟨false, false, "text"⟩ "image2text" = false ∧
    targetFeaturesAfter ⟨false, false, "text"⟩ "image2text"
      (fun n => (n : ℤ)) 42 3 = 42 ∧
    recomputeTargets ⟨true, false, "text"⟩ "image2text" = true ∧
    targetFeaturesAfter ⟨true, false, "text"⟩ "image2text"
      (fun n => (n : ℤ)) 42 3 = (2 : ℤ) := by
  refine ⟨by decide, ?_, by decide, ?_⟩
  · exact (C10_target_recompute ⟨false, false, "text"⟩ "image2text").2.2
      (by decide) ℤ (fun n => (n : ℤ)) 42 3
  · have h := (C10_target_recompute ⟨true, false, "text"⟩ "image2text").2.1
      (by decide) ℤ (fun n => (n : ℤ)) 42 2
    simpa using h

/-- Query batch for the C9 witness. -/
def Qw : Fin 1 → Fin 1 → ℚ := fun _ _ => 1

/-- Reference set for the C9 witness: two distinct class prototypes, so
the score row has a unique maximizer. -/
def Rw : Fin 2 → Fin 1 → ℚ := ![fun _ => 2, fun _ => 1]

/-- Witness for C9 (amended): on a tie-free score row the argmax tracks
the swap of the two classes. -/
theorem C9_similarity_permutation_witness :
    (∀ k, k ≠ argmaxF (simScore 1 Qw Rw 0) →
      simScore 1 Qw Rw 0 k < simScore 1 Qw Rw 0 (argmaxF (simScore 1 Qw Rw 0))) ∧
    ((∀ k j, simScore 1 Qw Rw 0 k = 1 * ∑ d, Qw 0 d * Rw k d ∧
      simScore 1 Qw (Rw ∘ (Equiv.swap 0 1)) 0 j =
        simScore 1 Qw Rw 0 ((Equiv.swap 0 1) j)) ∧
     (Equiv.swap 0 1) (argmaxF (simScore 1 Qw (Rw ∘ (Equiv.swap 0 1)) 0)) =
       argmaxF (simScore 1 Qw Rw 0)) := by
  have hs0 : simScore 1 Qw Rw 0 0 = 2 := by
    simp [simScore, Qw, Rw, Fin.sum_univ_one]
  have hs1 : simScore 1 Qw Rw 0 1 = 1 := by
    simp [simScore, Qw, Rw, Fin.sum_univ_one]
  have htwo : ∀ k : Fin 2, k ≠ 0 → k = 1 := by decide
  have ham : argmaxF (simScore 1 Qw Rw 0) = 0 := by
    apply argmaxF_unique
    intro k hk
    rw [htwo k hk, hs1, hs0]
    norm_num
  have huniq : ∀ k, k ≠ argmaxF (simScore 1 Qw Rw 0) →
      simScore 1 Qw Rw 0 k < simScore 1 Qw Rw 0 (argmaxF (simScore 1 Qw Rw 0)) := by
    intro k hk
    rw [ham] at hk ⊢
    rw [htwo k hk, hs1, hs0]
    norm_num
  exact ⟨huniq, C9_similarity_permutation 1 Qw Rw (Equiv.swap 0 1) 0 huniq⟩

end Runner
